import Mathlib

/-!
Verification of the Court-Status backend (Django + djongo sports-facility
booking service).  The data model and the two core operations —
`court_status_api` (the status-grid read path, §4.1 of the design) and
`update_booking_api` (the booking reconciler write path, §4.2) — are
embedded below as executable Lean functions, translated from
`booking/models.py` and `booking/views.py`.

Modelling conventions:
  * Mongo ObjectIds are modelled as `Nat`; fresh ids are drawn from a
    `nextId` counter in the store.
  * Calendar dates are modelled as an abstract `Nat` (the code only ever
    compares dates for equality; ISO-format parsing of the `date`
    parameter is request plumbing outside the verified claims).
  * `timezone.now()` is modelled by a `now : Nat` clock field used for
    the `created_at` / `updated_at` timestamps.
  * Django querysets become list filters; `order_by('hour')` becomes an
    insertion sort by `hour`; Python dicts keyed by `str(i)` become
    association lists keyed by `Nat.repr i` in insertion order.
-/

deriving instance DecidableEq for Except

namespace CourtStatus

/-- `Sport` model: `id` is a human-assigned slug primary key. -/
structure Sport where
  id : String
  name : String
  deriving Repr, DecidableEq

/-- `TimeSlot` model: `_id` is the ObjectId, `hour` an integer (unique). -/
structure TimeSlot where
  _id : Nat
  hour : Int
  deriving Repr, DecidableEq

/-- `TimeSlot.formatted_slot`: 12-hour clock rendering with AM/PM. -/
def TimeSlot.formatted_slot (t : TimeSlot) : String :=
  let hour_12 := t.hour % 12
  let hour_12 := if hour_12 == 0 then 12 else hour_12
  let am_pm := if t.hour < 12 then "AM" else "PM"
  toString hour_12 ++ ":00 " ++ am_pm

/-- `Court` model: `sport` holds the id of the owning `Sport`. -/
structure Court where
  _id : Nat
  sport : String
  name : String
  deriving Repr, DecidableEq

/-- `BookingStatus.choices` values. -/
def valid_statuses : List String :=
  ["available", "booked", "maintenance", "reserved"]

/-- `Booking` model: `court` / `time_slot` hold the referenced `_id`s. -/
structure Booking where
  _id : Nat
  court : Nat
  time_slot : Nat
  date : Nat
  user : String
  status : String
  created_at : Nat
  updated_at : Nat
  deriving Repr, DecidableEq

/-- The persistent store: catalog collections, bookings, an ObjectId
counter and the current clock. -/
structure DB where
  sports : List Sport
  courts : List Court
  timeSlots : List TimeSlot
  bookings : List Booking
  nextId : Nat
  now : Nat
  deriving Repr, DecidableEq

/-- One step of `TimeSlot.create_default_slots`:
`cls.objects.get_or_create(hour=hour)`. -/
def get_or_create_slot (db : DB) (h : Int) : DB :=
  if db.timeSlots.any (fun t => t.hour == h) then db
  else { db with timeSlots := db.timeSlots ++ [⟨db.nextId, h⟩],
                 nextId := db.nextId + 1 }

/-- `TimeSlot.create_default_slots`: `for hour in range(7, 23):
get_or_create(hour=hour)`. -/
def create_default_slots (db : DB) : DB :=
  ((List.range' 7 16).map (fun h => (h : Int))).foldl get_or_create_slot db

/-- Insert a slot into a list sorted by `hour` (stable). -/
def insertByHour (t : TimeSlot) : List TimeSlot → List TimeSlot
  | [] => [t]
  | u :: us => if t.hour ≤ u.hour then t :: u :: us else u :: insertByHour t us

/-- `TimeSlot.objects.all().order_by('hour')`. -/
def sortByHour : List TimeSlot → List TimeSlot
  | [] => []
  | t :: ts => insertByHour t (sortByHour ts)

/-- Lazy seeding used by the read paths: `if not
TimeSlot.objects.exists(): TimeSlot.create_default_slots()`. -/
def ensureSlots (db : DB) : DB :=
  if db.timeSlots.isEmpty then create_default_slots db else db

/-- One entry of a court's slot map: `{'id': str(i), 'time':
slot.formatted_slot, 'status': ...}`. -/
structure SlotEntry where
  id : String
  time : String
  status : String
  deriving Repr, DecidableEq

/-- One element of the response's `courts` list. -/
structure CourtInfo where
  id : String
  name : String
  slots : List (String × SlotEntry)
  deriving Repr, DecidableEq

/-- The status-grid response payload (wall-clock display string elided). -/
structure Grid where
  date : Nat
  sports : List Sport
  selectedSport : String
  timeSlots : List (Nat × String)
  courts : List CourtInfo
  deriving Repr, DecidableEq

/-- The initial slot map of a court: `for i, slot in
enumerate(time_slots, 1): slots[str(i)] = {id, time, status:
'available'}`. -/
def defaultSlots (ts : List TimeSlot) : List (String × SlotEntry) :=
  ts.enum.map (fun p =>
    (Nat.repr (p.1 + 1),
     { id := Nat.repr (p.1 + 1), time := p.2.formatted_slot,
       status := "available" }))

/-- 1-based frontend index of the first sorted slot whose `_id` matches,
as in the `for i, slot in enumerate(time_slots, 1): if slot._id ==
booking.time_slot._id: ... break` loop. -/
def findSlotIndex (ts : List TimeSlot) (sid : Nat) : Option Nat :=
  (ts.findIdx? (fun s => s._id == sid)).map (fun j => j + 1)

/-- Dict assignment `slots[key]['status'] = st` on the association list
(the key is present; order and other fields are untouched). -/
def setStatusAt (m : List (String × SlotEntry)) (key st : String) :
    List (String × SlotEntry) :=
  m.map (fun p => if p.1 == key then (p.1, { p.2 with status := st }) else p)

/-- Overwrite pass for one booking: locate its slot's frontend index and
overwrite that entry's status (`if slot_id in court_info['slots']`). -/
def applyBooking (ts : List TimeSlot) (m : List (String × SlotEntry))
    (b : Booking) : List (String × SlotEntry) :=
  match findSlotIndex ts b.time_slot with
  | none => m
  | some i =>
    let key := Nat.repr i
    if m.any (fun p => p.1 == key) then setStatusAt m key b.status else m

/-- Courts of the resolved sport: `Court.objects.filter(sport__id=sport_id)`. -/
def filteredCourts (db : DB) (sport_id : String) : List Court :=
  db.courts.filter (fun c => c.sport == sport_id)

/-- The `court__sport__id=sport_id, date=booking_date` booking filter
(the join resolves the booking's court in the courts collection). -/
def sportDateBookings (db : DB) (sport_id : String) (booking_date : Nat) :
    List Booking :=
  db.bookings.filter (fun b =>
    (match db.courts.find? (fun c => c._id == b.court) with
     | some c => c.sport == sport_id
     | none => false) && b.date == booking_date)

/-- Body of `court_status_api` after sport resolution succeeded. -/
def court_status_core (sport_id : String) (booking_date : Nat) (db : DB) :
    Grid × DB :=
  let db := ensureSlots db
  let time_slots := sortByHour db.timeSlots
  let courts := filteredCourts db sport_id
  let bookings := sportDateBookings db sport_id booking_date
  let court_data := courts.map (fun court =>
    { id := Nat.repr court._id, name := court.name,
      slots := (bookings.filter (fun b => b.court == court._id)).foldl
        (applyBooking time_slots) (defaultSlots time_slots) : CourtInfo })
  let time_slots_data := time_slots.enum.map (fun p =>
    (p.1 + 1, p.2.formatted_slot))
  ({ date := booking_date, sports := db.sports, selectedSport := sport_id,
     timeSlots := time_slots_data, courts := court_data }, db)

/-- `court_status_api` (GetStatusGrid).  `sport_id?` is the `sport` query
parameter (`none` or the empty string trigger the default-sport branch,
matching Python truthiness); errors model the 4xx/404 responses. -/
def court_status_api (sport_id? : Option String) (booking_date : Nat)
    (db : DB) : Except String Grid × DB :=
  let raw := sport_id?.getD ""
  if raw == "" then
    match db.sports.head? with
    | some first_sport =>
      let r := court_status_core first_sport.id booking_date db
      (Except.ok r.1, r.2)
    | none => (Except.error "No sports available", db)
  else
    let r := court_status_core raw booking_date db
    (Except.ok r.1, r.2)

/-- `time_slots_api` (ListTimeSlots): seeds defaults when empty, returns
the hour-sorted slots. -/
def time_slots_api (db : DB) : List TimeSlot × DB :=
  let db := ensureSlots db
  (sortByHour db.timeSlots, db)

/-- Value of a non-empty all-digit character string. -/
def digitsVal (cs : List Char) : Option Nat :=
  if cs.isEmpty then none
  else if cs.all Char.isDigit then
    some (cs.foldl (fun a c => 10 * a + (c.toNat - 48)) 0)
  else none

/-- Python `int(s)` on a string: optional sign followed by digits. -/
def pyInt (s : String) : Option Int :=
  match s.data with
  | '-' :: rest => (digitsVal rest).map (fun n => -(n : Int))
  | '+' :: rest => (digitsVal rest).map (fun n => (n : Int))
  | cs => (digitsVal cs).map (fun n => (n : Int))

/-- Python list subscription `l[i]`: negative indices count from the end,
out-of-range raises `IndexError` (modelled as `none`). -/
def pyListGet {α : Type} (l : List α) (i : Int) : Option α :=
  if 0 ≤ i then l.get? i.toNat
  else if i.natAbs ≤ l.length then l.get? (l.length - i.natAbs)
  else none

/-- `ObjectId(court_id)` then `Court.objects.get(_id=...)`: parse the id
string (ObjectIds are modelled as decimal numerals) and look the court
up; any failure lands in the common `except` clause. -/
def lookupCourt (db : DB) (court_id : String) : Option Court :=
  match digitsVal court_id.data with
  | none => none
  | some oid => db.courts.find? (fun c => c._id == oid)

/-- The `booking` summary object of a successful update response (the
delete path emits no `id` field, modelled as `none`). -/
structure RespBooking where
  id : Option Nat
  court : String
  time_slot : String
  date : Nat
  status : String
  user : String
  action : String
  deriving Repr, DecidableEq

/-- Predicate for the unique-triple lookup used by both write paths. -/
def tripleMatch (court_oid slot_oid booking_date : Nat) (b : Booking) : Bool :=
  b.court == court_oid && b.time_slot == slot_oid && b.date == booking_date

/-- Replace the first element satisfying `p` by `f` of it. -/
def updateFirst {α : Type} (p : α → Bool) (f : α → α) : List α → List α
  | [] => []
  | x :: xs => if p x then f x :: xs else x :: updateFirst p f xs

/-- `update_booking_api` (SetSlotStatus).  Inputs are the raw request
fields (`none` = absent; the empty string is likewise falsy for the
`all([...])` check); `username` is the authenticated `request.user`;
`booking_date` is the parsed `date` (ISO parsing elided).  The returned
`Except` models the 400 error responses; on the upsert path,
`update_or_create` first runs `get()`, which raises
`MultipleObjectsReturned` when several rows match the triple — the
view's outer `except Exception` turns that into a 500 ("Failed to
update booking") with the store unchanged. -/
def update_booking_api (court_id time_slot_id new_status : Option String)
    (booking_date : Nat) (username : String) (db : DB) :
    Except String RespBooking × DB :=
  if court_id.getD "" == "" || time_slot_id.getD "" == ""
      || new_status.getD "" == "" then
    (Except.error "Missing required fields: courtId, timeSlotId, status", db)
  else
    let ns := new_status.getD ""
    if !(valid_statuses.contains ns) then
      (Except.error "Invalid status", db)
    else
      match pyInt (time_slot_id.getD "") with
      | none => (Except.error "Invalid court or time slot", db)
      | some frontend_slot_id =>
        let time_slots := sortByHour db.timeSlots
        match pyListGet time_slots (frontend_slot_id - 1) with
        | none => (Except.error "Invalid court or time slot", db)
        | some time_slot =>
          match lookupCourt db (court_id.getD "") with
          | none => (Except.error "Invalid court or time slot", db)
          | some court =>
            if ns == "available" then
              let matching := db.bookings.filter
                (tripleMatch court._id time_slot._id booking_date)
              let remaining := db.bookings.filter
                (fun b => !(tripleMatch court._id time_slot._id booking_date b))
              let db' := { db with bookings := remaining }
              (Except.ok
                { id := none, court := court.name,
                  time_slot := time_slot.formatted_slot,
                  date := booking_date, status := ns, user := username,
                  action := if matching.length > 0 then "deleted"
                            else "no_change" }, db')
            else
              let existing := db.bookings.filter
                (tripleMatch court._id time_slot._id booking_date)
              if existing.length > 1 then
                (Except.error "Failed to update booking", db)
              else
                match db.bookings.find?
                    (tripleMatch court._id time_slot._id booking_date) with
                | some b0 =>
                  let upd := updateFirst
                    (tripleMatch court._id time_slot._id booking_date)
                    (fun b => { b with
                      status := ns
                      user := username
                      updated_at := db.now }) db.bookings
                  let db' := { db with bookings := upd }
                  (Except.ok
                    { id := some b0._id, court := court.name,
                      time_slot := time_slot.formatted_slot,
                      date := booking_date, status := ns, user := username,
                      action := "updated" }, db')
                | none =>
                  let nb : Booking :=
                    { _id := db.nextId, court := court._id,
                      time_slot := time_slot._id, date := booking_date,
                      user := username, status := ns,
                      created_at := db.now, updated_at := db.now }
                  (Except.ok
                    { id := some db.nextId, court := court.name,
                      time_slot := time_slot.formatted_slot,
                      date := booking_date, status := ns, user := username,
                      action := "created" },
                   { db with bookings := db.bookings ++ [nb],
                             nextId := db.nextId + 1 })

/-- `Booking.save` for an instance with no primary key yet: look for an
existing booking of the same triple; update it in place when found,
insert otherwise (`models.py` lines 95-116). -/
def booking_save_new (db : DB) (court_oid slot_oid booking_date : Nat)
    (username stat : String) : DB :=
  match db.bookings.find? (tripleMatch court_oid slot_oid booking_date) with
  | some _ =>
    let upd := updateFirst (tripleMatch court_oid slot_oid booking_date)
      (fun b => { b with
        status := stat
        user := username
        updated_at := db.now }) db.bookings
    { db with bookings := upd }
  | none =>
    let nb : Booking :=
      { _id := db.nextId, court := court_oid, time_slot := slot_oid,
        date := booking_date, user := username, status := stat,
        created_at := db.now, updated_at := db.now }
    { db with bookings := db.bookings ++ [nb], nextId := db.nextId + 1 }

/-- The write operations acting on the booking store: a reconciler call
(`update_booking_api`, covering both its delete and upsert paths) or a
direct `Booking.save` of a fresh instance. -/
inductive WriteOp where
  | setSlot (court_id time_slot_id new_status : Option String)
      (booking_date : Nat) (username : String)
  | saveNew (court_oid slot_oid booking_date : Nat) (username stat : String)

/-- Effect of a write operation on the store. -/
def applyWrite (op : WriteOp) (db : DB) : DB :=
  match op with
  | .setSlot c t s d u => (update_booking_api c t s d u db).2
  | .saveNew c t d u s => booking_save_new db c t d u s

/-- Two bookings occupy the same (court, time_slot, date) triple. -/
def sameTriple (a b : Booking) : Bool :=
  a.court == b.court && a.time_slot == b.time_slot && a.date == b.date

/-- The store invariant: pairwise-distinct triples among bookings. -/
def uniqueTriples : List Booking → Bool
  | [] => true
  | b :: bs => bs.all (fun b2 => !(sameTriple b b2)) && uniqueTriples bs

/-! ### Injectivity of the decimal rendering `Nat.repr`

The slot maps are keyed by `str(i)`; distinctness of those keys is what
keeps one booking's overwrite from clobbering another slot's entry, so we
prove that `Nat.repr` is injective by exhibiting a decimal reader that
inverts it. -/

/-- Numeric value of a decimal digit character. -/
def digitVal (c : Char) : Nat := c.toNat - 48

/-- Read a decimal digit string on top of accumulator `a`. -/
def decVal (a : Nat) (cs : List Char) : Nat :=
  cs.foldl (fun x c => 10 * x + digitVal c) a

theorem digitVal_digitChar : ∀ d < 10, digitVal (Nat.digitChar d) = d := by
  decide

theorem toDigitsCore_decVal :
    ∀ (fuel n : Nat) (acc : List Char), n < fuel →
      decVal 0 (Nat.toDigitsCore 10 fuel n acc) = decVal n acc := by
  intro fuel
  induction fuel with
  | zero => intro n acc h; omega
  | succ f ih =>
    intro n acc h
    show decVal 0 (Nat.toDigitsCore 10 (f + 1) n acc) = decVal n acc
    rw [Nat.toDigitsCore]
    by_cases h0 : n / 10 = 0
    · rw [if_pos h0]
      show decVal (10 * 0 + digitVal (Nat.digitChar (n % 10))) acc = decVal n acc
      rw [digitVal_digitChar (n % 10) (Nat.mod_lt n (by omega))]
      congr 1
      omega
    · rw [if_neg h0]
      have hlt : n / 10 < f := by omega
      rw [ih (n / 10) (Nat.digitChar (n % 10) :: acc) hlt]
      show decVal (10 * (n / 10) + digitVal (Nat.digitChar (n % 10))) acc
        = decVal n acc
      rw [digitVal_digitChar (n % 10) (Nat.mod_lt n (by omega))]
      congr 1
      omega

theorem decVal_repr (n : Nat) : decVal 0 (Nat.repr n).data = n := by
  show decVal 0 (Nat.toDigitsCore 10 (n + 1) n []) = n
  rw [toDigitsCore_decVal (n + 1) n [] (Nat.lt_succ_self n)]
  rfl

theorem repr_injective {m n : Nat} (h : Nat.repr m = Nat.repr n) : m = n := by
  have h2 : (Nat.repr m).data = (Nat.repr n).data := by rw [h]
  have hm := decVal_repr m
  have hn := decVal_repr n
  rw [h2] at hm
  omega

theorem repr_ne {m n : Nat} (h : m ≠ n) : Nat.repr m ≠ Nat.repr n :=
  fun he => h (repr_injective he)

/-! ### Generic list lemmas -/

theorem findIdx?_some_get? {α : Type} {p : α → Bool} :
    ∀ {xs : List α} {j : Nat}, xs.findIdx? p = some j →
      ∃ a, xs.get? j = some a ∧ p a = true := by
  intro xs
  induction xs with
  | nil => intro j h; simp at h
  | cons x xs ih =>
    intro j h
    rw [List.findIdx?_cons] at h
    by_cases hp : p x
    · rw [if_pos hp] at h
      cases h
      exact ⟨x, rfl, hp⟩
    · rw [if_neg hp, List.findIdx?_succ] at h
      obtain ⟨j', hx, rfl⟩ := Option.map_eq_some'.mp h
      exact ih hx

theorem findIdx?_min {α : Type} {p : α → Bool} :
    ∀ {xs : List α} {j : Nat}, xs.findIdx? p = some j →
      ∀ k < j, ∀ b, xs.get? k = some b → p b = false := by
  intro xs
  induction xs with
  | nil => intro j _ k hk b hb; simp at hb
  | cons x xs ih =>
    intro j h k hk b hb
    rw [List.findIdx?_cons] at h
    by_cases hp : p x
    · rw [if_pos hp] at h; cases h; omega
    · rw [if_neg hp, List.findIdx?_succ] at h
      obtain ⟨j', hx, rfl⟩ := Option.map_eq_some'.mp h
      match k, hb with
      | 0, hb =>
        cases hb
        simpa using hp
      | k' + 1, hb => exact ih hx k' (by omega) b hb

theorem findIdx?_of_get? {α : Type} {p : α → Bool} :
    ∀ {xs : List α} {j : Nat} {a : α}, xs.get? j = some a → p a = true →
      (∀ k < j, ∀ b, xs.get? k = some b → p b = false) →
      xs.findIdx? p = some j := by
  intro xs
  induction xs with
  | nil => intro j a h; simp at h
  | cons x xs ih =>
    intro j a hj hp hmin
    rw [List.findIdx?_cons]
    match j, hj with
    | 0, hj =>
      cases hj
      rw [if_pos hp]
    | j' + 1, hj =>
      have hx : p x = false := hmin 0 (by omega) x rfl
      rw [if_neg (by simp [hx]), List.findIdx?_succ,
        ih hj hp (fun k hk b hb => hmin (k + 1) (by omega) b hb)]
      rfl

theorem lookup_of_get? {β : Type} {m : List (String × β)} {j : Nat}
    {k : String} {e : β} (hj : m.get? j = some (k, e))
    (hmin : ∀ l < j, ∀ p, m.get? l = some p → p.1 ≠ k) :
    List.lookup k m = some e := by
  induction m generalizing j with
  | nil => simp at hj
  | cons x xs ih =>
    match j, hj with
    | 0, hj =>
      cases hj
      simp [List.lookup]
    | j' + 1, hj =>
      have hx : x.1 ≠ k := hmin 0 (by omega) x rfl
      have : (k == x.1) = false := by
        simpa using fun he => hx he.symm
      cases x with
      | mk k0 e0 =>
        simp only [List.lookup, this]
        exact ih hj (fun l hl p hp => hmin (l + 1) (by omega) p hp)

theorem any_key_of_lookup {β : Type} {m : List (String × β)} {k : String}
    {e : β} (h : List.lookup k m = some e) :
    m.any (fun p => p.1 == k) = true := by
  induction m with
  | nil => simp [List.lookup] at h
  | cons x xs ih =>
    cases x with
    | mk k0 e0 =>
      by_cases hk : k = k0
      · subst hk; simp
      · have hne : (k == k0) = false := by simpa using hk
        simp only [List.lookup, hne] at h
        have := ih h
        simp only [List.any_cons, this, Bool.or_true]

/-! ### Slot-map lemmas: the default map, status overwrites, and the
booking fold of `court_status_core` -/

theorem beq_string_comm (a b : String) : (a == b) = (b == a) := by
  by_cases h : a = b
  · subst h; rfl
  · have h1 : (a == b) = false := by simpa using h
    have h2 : (b == a) = false := by simpa using fun he => h he.symm
    rw [h1, h2]

theorem length_setStatusAt (m : List (String × SlotEntry)) (k st : String) :
    (setStatusAt m k st).length = m.length :=
  List.length_map m _

theorem get?_setStatusAt (m : List (String × SlotEntry)) (k st : String)
    (j : Nat) :
    (setStatusAt m k st).get? j = (m.get? j).map
      (fun p => if p.1 == k then (p.1, { p.2 with status := st }) else p) :=
  List.get?_map _ m j

theorem lookup_cons {β : Type} (k k0 : String) (e0 : β)
    (xs : List (String × β)) :
    List.lookup k ((k0, e0) :: xs)
      = if k == k0 then some e0 else List.lookup k xs := by
  simp only [List.lookup]
  split <;> simp_all

theorem setStatusAt_cons (k0 : String) (e0 : SlotEntry)
    (xs : List (String × SlotEntry)) (k st : String) :
    setStatusAt ((k0, e0) :: xs) k st
      = (if k0 == k then (k0, { e0 with status := st }) else (k0, e0))
          :: setStatusAt xs k st := rfl

theorem lookup_setStatusAt_self (m : List (String × SlotEntry)) (k st : String) :
    List.lookup k (setStatusAt m k st)
      = (List.lookup k m).map (fun e => { e with status := st }) := by
  induction m with
  | nil => rfl
  | cons x xs ih =>
    cases x with
    | mk k0 e0 =>
      rw [setStatusAt_cons]
      by_cases h : k0 = k
      · subst h
        rw [if_pos (by simp), lookup_cons, lookup_cons, if_pos (by simp),
          if_pos (by simp)]
        rfl
      · have h1 : (k0 == k) = false := by simpa using h
        have h2 : (k == k0) = false := by rw [beq_string_comm]; exact h1
        rw [if_neg (by simp [h1]), lookup_cons, lookup_cons,
          if_neg (by simp [h2]), if_neg (by simp [h2])]
        exact ih

theorem lookup_setStatusAt_ne (m : List (String × SlotEntry)) (k k' st : String)
    (h : k' ≠ k) :
    List.lookup k' (setStatusAt m k st) = List.lookup k' m := by
  induction m with
  | nil => rfl
  | cons x xs ih =>
    cases x with
    | mk k0 e0 =>
      rw [setStatusAt_cons]
      by_cases h0 : k0 = k
      · subst h0
        have h1 : (k' == k0) = false := by simpa using h
        rw [if_pos (by simp), lookup_cons, lookup_cons, if_neg (by simp [h1]),
          if_neg (by simp [h1])]
        exact ih
      · have h1 : (k0 == k) = false := by simpa using h0
        rw [if_neg (by simp [h1]), lookup_cons, lookup_cons]
        by_cases hkk : k' = k0
        · subst hkk
          rw [if_pos (by simp), if_pos (by simp)]
        · have h2 : (k' == k0) = false := by simpa using hkk
          rw [if_neg (by simp [h2]), if_neg (by simp [h2])]
          exact ih

theorem length_defaultSlots (ts : List TimeSlot) :
    (defaultSlots ts).length = ts.length := by
  simp [defaultSlots]

theorem get?_defaultSlots (ts : List TimeSlot) (j : Nat) (slot : TimeSlot)
    (hj : ts.get? j = some slot) :
    (defaultSlots ts).get? j = some (Nat.repr (j + 1),
      { id := Nat.repr (j + 1), time := slot.formatted_slot,
        status := "available" }) := by
  have he : ts.enum.get? j = some (j, slot) := by
    rw [List.get?_enum, hj]; rfl
  show (ts.enum.map _).get? j = _
  rw [List.get?_map, he]
  rfl

theorem lookup_defaultSlots (ts : List TimeSlot) (i : Nat) (slot : TimeSlot)
    (hi1 : 1 ≤ i) (hslot : ts.get? (i - 1) = some slot) :
    List.lookup (Nat.repr i) (defaultSlots ts) = some
      { id := Nat.repr i, time := slot.formatted_slot,
        status := "available" } := by
  have hij : i - 1 + 1 = i := by omega
  have hg := get?_defaultSlots ts (i - 1) slot hslot
  rw [hij] at hg
  apply lookup_of_get? hg
  intro l hl p hp
  have hlt : l < ts.length := by
    have hlen : (defaultSlots ts).length = ts.length := length_defaultSlots ts
    by_contra hc
    rw [List.get?_eq_none.mpr (by omega)] at hp
    cases hp
  have hs' : ts.get? l = some (ts.get ⟨l, hlt⟩) := List.get?_eq_get hlt
  have hg' := get?_defaultSlots ts l _ hs'
  rw [hp] at hg'
  cases hg'
  exact repr_ne (by omega)

theorem lookup_applyBooking_other (ts : List TimeSlot)
    (m : List (String × SlotEntry)) (b : Booking) (i : Nat) (slot : TimeSlot)
    (hi1 : 1 ≤ i) (hslot : ts.get? (i - 1) = some slot)
    (hne : b.time_slot ≠ slot._id) :
    List.lookup (Nat.repr i) (applyBooking ts m b)
      = List.lookup (Nat.repr i) m := by
  cases hf : ts.findIdx? (fun s => s._id == b.time_slot) with
  | none =>
    have happ : applyBooking ts m b = m := by
      unfold applyBooking findSlotIndex
      rw [hf]
      rfl
    rw [happ]
  | some j0 =>
    obtain ⟨a, hga, hpa⟩ := findIdx?_some_get? hf
    have haid : a._id = b.time_slot := by simpa using hpa
    have hj0 : j0 ≠ i - 1 := by
      intro he
      subst he
      rw [hga] at hslot
      cases hslot
      exact hne haid.symm
    have hkey : Nat.repr i ≠ Nat.repr (j0 + 1) := repr_ne (by omega)
    have happ : applyBooking ts m b
        = if m.any (fun p => p.1 == Nat.repr (j0 + 1))
          then setStatusAt m (Nat.repr (j0 + 1)) b.status else m := by
      unfold applyBooking findSlotIndex
      rw [hf]
      rfl
    rw [happ]
    by_cases hg : m.any (fun p => p.1 == Nat.repr (j0 + 1)) = true
    · rw [if_pos hg]
      exact lookup_setStatusAt_ne m (Nat.repr (j0 + 1)) (Nat.repr i) b.status
        hkey
    · rw [if_neg hg]

theorem lookup_applyBooking_match (ts : List TimeSlot)
    (m : List (String × SlotEntry)) (b : Booking) (i : Nat) (slot : TimeSlot)
    (e : SlotEntry) (hi1 : 1 ≤ i) (hslot : ts.get? (i - 1) = some slot)
    (hnd : (ts.map (fun t => t._id)).Nodup)
    (heq : b.time_slot = slot._id)
    (hm : List.lookup (Nat.repr i) m = some e) :
    List.lookup (Nat.repr i) (applyBooking ts m b)
      = some { e with status := b.status } := by
  have hfind : ts.findIdx? (fun s => s._id == b.time_slot) = some (i - 1) := by
    apply findIdx?_of_get? hslot (by simp [heq])
    intro k hk b' hb'
    simp only [beq_eq_false_iff_ne, ne_eq]
    intro hid
    have hilt : i - 1 < ts.length := by
      by_contra hc
      rw [List.get?_eq_none.mpr (by omega)] at hslot
      cases hslot
    have hklt : k < ts.length := by omega
    have h1 : (ts.map (fun t => t._id)).get? k
        = (ts.map (fun t => t._id)).get? (i - 1) := by
      rw [List.get?_map, List.get?_map, hslot, hb']
      simp [hid, heq]
    have := List.get?_inj (by simpa using hklt) (by simpa using hnd) h1
    omega
  have hij : i - 1 + 1 = i := by omega
  have happ : applyBooking ts m b
      = if m.any (fun p => p.1 == Nat.repr i)
        then setStatusAt m (Nat.repr i) b.status else m := by
    unfold applyBooking findSlotIndex
    rw [hfind]
    show (if m.any (fun p => p.1 == Nat.repr (i - 1 + 1))
      then setStatusAt m (Nat.repr (i - 1 + 1)) b.status else m) = _
    rw [hij]
  rw [happ]
  rw [if_pos (any_key_of_lookup hm)]
  rw [lookup_setStatusAt_self, hm]
  rfl

theorem lookup_fold_nomatch (ts : List TimeSlot) (i : Nat) (slot : TimeSlot)
    (hi1 : 1 ≤ i) (hslot : ts.get? (i - 1) = some slot) :
    ∀ (bs : List Booking) (m : List (String × SlotEntry)),
      (∀ b ∈ bs, (b.time_slot == slot._id) = false) →
      List.lookup (Nat.repr i) (bs.foldl (applyBooking ts) m)
        = List.lookup (Nat.repr i) m := by
  intro bs
  induction bs with
  | nil => intro m _; rfl
  | cons b bs ih =>
    intro m hall
    rw [List.foldl_cons, ih _ (fun x hx => hall x (List.mem_cons_of_mem b hx)),
      lookup_applyBooking_other ts m b i slot hi1 hslot]
    simpa using hall b (List.mem_cons_self b bs)

theorem lookup_fold_main (ts : List TimeSlot) (i : Nat) (slot : TimeSlot)
    (hi1 : 1 ≤ i) (hslot : ts.get? (i - 1) = some slot)
    (hnd : (ts.map (fun t => t._id)).Nodup) :
    ∀ (bs : List Booking) (m : List (String × SlotEntry)) (tm st0 : String),
      (bs.filter (fun b => b.time_slot == slot._id)).length ≤ 1 →
      List.lookup (Nat.repr i) m
        = some { id := Nat.repr i, time := tm, status := st0 } →
      List.lookup (Nat.repr i) (bs.foldl (applyBooking ts) m)
        = some { id := Nat.repr i, time := tm, status :=
            match bs.find? (fun b => b.time_slot == slot._id) with
            | some b => b.status
            | none => st0 } := by
  intro bs
  induction bs with
  | nil => intro m tm st0 _ hm; exact hm
  | cons b bs ih =>
    intro m tm st0 hcount hm
    rw [List.foldl_cons]
    cases hb : (b.time_slot == slot._id) with
    | true =>
      have hbs : ∀ x ∈ bs, (x.time_slot == slot._id) = false := by
        intro x hx
        by_contra hc
        have hx' : (x.time_slot == slot._id) = true := by
          cases hxx : x.time_slot == slot._id
          · exact absurd hxx hc
          · rfl
        have : 2 ≤ ((b :: bs).filter
            (fun b => b.time_slot == slot._id)).length := by
          have hfc : (b :: bs).filter (fun x => x.time_slot == slot._id)
              = b :: bs.filter (fun x => x.time_slot == slot._id) := by
            simp [hb]
          rw [hfc]
          have hxm : x ∈ bs.filter (fun x => x.time_slot == slot._id) :=
            List.mem_filter.mpr ⟨hx, hx'⟩
          have hpos := List.length_pos_of_mem hxm
          rw [List.length_cons]
          omega
        omega
      rw [lookup_fold_nomatch ts i slot hi1 hslot bs _ hbs]
      rw [lookup_applyBooking_match ts m b i slot _ hi1 hslot hnd
        (by simpa using hb) hm]
      have hfind2 : (b :: bs).find? (fun x => x.time_slot == slot._id)
          = some b := by
        simp [hb]
      rw [hfind2]
    | false =>
      have hm' : List.lookup (Nat.repr i) (applyBooking ts m b)
          = some { id := Nat.repr i, time := tm, status := st0 } := by
        rw [lookup_applyBooking_other ts m b i slot hi1 hslot
          (by simpa using hb)]
        exact hm
      have hcount' : (bs.filter (fun b => b.time_slot == slot._id)).length
          ≤ 1 := by
        have hfc : (b :: bs).filter (fun x => x.time_slot == slot._id)
            = bs.filter (fun x => x.time_slot == slot._id) := by
          simp [hb]
        rw [hfc] at hcount
        exact hcount
      have hfind2 : (b :: bs).find? (fun x => x.time_slot == slot._id)
          = bs.find? (fun x => x.time_slot == slot._id) := by
        simp [hb]
      rw [ih _ tm st0 hcount' hm', hfind2]

/-! ### Lemmas about the uniqueness invariant `uniqueTriples` -/

theorem uniqueTriples_sublist {l₁ l₂ : List Booking}
    (h : List.Sublist l₁ l₂) (hu : uniqueTriples l₂ = true) :
    uniqueTriples l₁ = true := by
  induction h with
  | slnil => rfl
  | cons b h ih =>
    apply ih
    have hu2 := (Bool.and_eq_true _ _).mp hu
    exact hu2.2
  | cons₂ b h ih =>
    have hu2 := (Bool.and_eq_true _ _).mp hu
    rw [uniqueTriples]
    apply (Bool.and_eq_true _ _).mpr
    constructor
    · rw [List.all_eq_true]
      intro x hx
      exact (List.all_eq_true.mp hu2.1) x (h.subset hx)
    · exact ih hu2.2

theorem uniqueTriples_filter (l : List Booking) (p : Booking → Bool)
    (hu : uniqueTriples l = true) : uniqueTriples (l.filter p) = true :=
  uniqueTriples_sublist (List.filter_sublist l) hu

theorem mem_updateFirst {α : Type} {p : α → Bool} {f : α → α} :
    ∀ {l : List α} {x : α}, x ∈ updateFirst p f l →
      x ∈ l ∨ ∃ y, y ∈ l ∧ x = f y := by
  intro l
  induction l with
  | nil => intro x hx; cases hx
  | cons a as ih =>
    intro x hx
    rw [updateFirst] at hx
    by_cases hp : p a
    · rw [if_pos hp] at hx
      rcases List.mem_cons.mp hx with h | h
      · exact Or.inr ⟨a, List.mem_cons_self a as, h⟩
      · exact Or.inl (List.mem_cons_of_mem a h)
    · rw [if_neg hp] at hx
      rcases List.mem_cons.mp hx with h | h
      · exact Or.inl (h ▸ List.mem_cons_self a as)
      · rcases ih h with h2 | ⟨y, hy, he⟩
        · exact Or.inl (List.mem_cons_of_mem a h2)
        · exact Or.inr ⟨y, List.mem_cons_of_mem a hy, he⟩

theorem sameTriple_of_coords {a a' : Booking}
    (hc : a'.court = a.court) (ht : a'.time_slot = a.time_slot)
    (hd : a'.date = a.date) (b : Booking) :
    sameTriple a' b = sameTriple a b := by
  simp [sameTriple, hc, ht, hd]

theorem uniqueTriples_updateFirst (p : Booking → Bool) (f : Booking → Booking)
    (hf : ∀ b, (f b).court = b.court ∧ (f b).time_slot = b.time_slot ∧
      (f b).date = b.date) :
    ∀ l : List Booking, uniqueTriples l = true →
      uniqueTriples (updateFirst p f l) = true := by
  intro l
  induction l with
  | nil => intro _; rfl
  | cons a as ih =>
    intro hu
    have hu2 := (Bool.and_eq_true _ _).mp hu
    rw [updateFirst]
    by_cases hp : p a
    · rw [if_pos hp]
      apply (Bool.and_eq_true _ _).mpr
      constructor
      · rw [List.all_eq_true]
        intro x hx
        have hfa := hf a
        rw [sameTriple_of_coords hfa.1 hfa.2.1 hfa.2.2 x]
        exact (List.all_eq_true.mp hu2.1) x hx
      · exact hu2.2
    · rw [if_neg hp]
      apply (Bool.and_eq_true _ _).mpr
      constructor
      · rw [List.all_eq_true]
        intro x hx
        rcases mem_updateFirst hx with h | ⟨y, hy, he⟩
        · exact (List.all_eq_true.mp hu2.1) x h
        · subst he
          have hfy := hf y
          have hsy : sameTriple a (f y) = sameTriple a y := by
            simp [sameTriple, hfy.1, hfy.2.1, hfy.2.2]
          rw [hsy]
          exact (List.all_eq_true.mp hu2.1) y hy
      · exact ih hu2.2

theorem uniqueTriples_append_single (l : List Booking) (nb : Booking)
    (hu : uniqueTriples l = true)
    (hnone : ∀ b ∈ l, sameTriple b nb = false) :
    uniqueTriples (l ++ [nb]) = true := by
  induction l with
  | nil => simp [uniqueTriples]
  | cons a as ih =>
    have hu2 := (Bool.and_eq_true _ _).mp hu
    rw [List.cons_append, uniqueTriples]
    apply (Bool.and_eq_true _ _).mpr
    constructor
    · rw [List.all_eq_true]
      intro x hx
      rcases List.mem_append.mp hx with h | h
      · exact (List.all_eq_true.mp hu2.1) x h
      · have hxe : x = nb := by simpa using h
        subst hxe
        simpa using hnone a (List.mem_cons_self a as)
    · exact ih hu2.2
        (fun b hb => hnone b (List.mem_cons_of_mem a hb))

theorem count_tripleMatch (cid sid0 d : Nat) :
    ∀ l : List Booking, uniqueTriples l = true →
      (l.filter (tripleMatch cid sid0 d)).length ≤ 1 := by
  intro l
  induction l with
  | nil => intro _; simp
  | cons a as ih =>
    intro hu
    have hu2 := (Bool.and_eq_true _ _).mp hu
    by_cases hp : tripleMatch cid sid0 d a = true
    · have hfc : (a :: as).filter (tripleMatch cid sid0 d)
          = a :: as.filter (tripleMatch cid sid0 d) := by
        simp [hp]
      rw [hfc, List.length_cons]
      have hnil : as.filter (tripleMatch cid sid0 d) = [] := by
        rw [List.filter_eq_nil]
        intro x hx
        intro hpx
        have hs : sameTriple a x = true := by
          have h1 := hp
          have h2 := hpx
          simp only [tripleMatch, Bool.and_eq_true, beq_iff_eq] at h1 h2
          simp [sameTriple, h1.1.1, h1.1.2, h1.2, h2.1.1, h2.1.2, h2.2]
        have := (List.all_eq_true.mp hu2.1) x hx
        rw [hs] at this
        cases this
      rw [hnil]
      simp
    · have hfc : (a :: as).filter (tripleMatch cid sid0 d)
          = as.filter (tripleMatch cid sid0 d) := by
        simp [hp]
      rw [hfc]
      exact ih hu2.2

/-! ### `find?` / `filter` interchange and id-keyed lookup -/

theorem find?_filter {α : Type} (q p : α → Bool) :
    ∀ l : List α, (l.filter q).find? p = l.find? (fun a => p a && q a) := by
  intro l
  induction l with
  | nil => rfl
  | cons a as ih =>
    by_cases hq : q a = true
    · have hfc : (a :: as).filter q = a :: as.filter q := by simp [hq]
      rw [hfc]
      by_cases hp : p a = true
      · have h1 : (a :: as.filter q).find? p = some a := by simp [hp]
        have h2 : (a :: as).find? (fun a => p a && q a) = some a := by
          simp [hp, hq]
        rw [h1, h2]
      · have h1 : (a :: as.filter q).find? p = (as.filter q).find? p := by
          simp [hp]
        have h2 : (a :: as).find? (fun a => p a && q a)
            = as.find? (fun a => p a && q a) := by simp [hp]
        rw [h1, h2, ih]
    · have hfc : (a :: as).filter q = as.filter q := by simp [hq]
      have h2 : (a :: as).find? (fun a => p a && q a)
          = as.find? (fun a => p a && q a) := by simp [hq]
      rw [hfc, h2, ih]

theorem find?_court_self (courts : List Court) (c : Court)
    (hnd : (courts.map (fun c => c._id)).Nodup) (hc : c ∈ courts) :
    courts.find? (fun cc => cc._id == c._id) = some c := by
  cases hf : courts.find? (fun cc => cc._id == c._id) with
  | none =>
    exfalso
    have := List.find?_eq_none.mp hf c hc
    simp at this
  | some c' =>
    have hmem := List.mem_of_find?_eq_some hf
    have hid : c'._id = c._id := by simpa using List.find?_some hf
    have : c' = c := List.inj_on_of_nodup_map hnd hmem hc hid
    rw [this]

theorem courtBookings_eq (db1 : DB) (sid : String) (d : Nat) (c : Court)
    (hndc : (db1.courts.map (fun c => c._id)).Nodup) (hc : c ∈ db1.courts)
    (hcs : c.sport = sid) :
    (sportDateBookings db1 sid d).filter (fun b => b.court == c._id)
      = db1.bookings.filter (fun b => b.court == c._id && b.date == d) := by
  rw [sportDateBookings, List.filter_filter]
  apply List.filter_congr
  intro b hb
  by_cases hbc : b.court = c._id
  · have hfind : db1.courts.find? (fun cc => cc._id == b.court) = some c := by
      rw [hbc]
      exact find?_court_self db1.courts c hndc hc
    rw [hfind]
    simp [hbc, hcs]
  · have h1 : (b.court == c._id) = false := by simpa using hbc
    rw [h1]
    rfl

/-- The central read-path lemma: entry `str(i)` of court `k`'s slot map in
the status grid carries the unique booking's status for the resolved
(court, slot-at-index-i, date) triple, or "available" when none exists. -/
theorem grid_entry (db : DB) (sid : String) (d : Nat) (k i : Nat)
    (c : Court) (slot : TimeSlot)
    (hnd : ((sortByHour (ensureSlots db).timeSlots).map
      (fun t => t._id)).Nodup)
    (hndc : ((ensureSlots db).courts.map (fun c => c._id)).Nodup)
    (hu : uniqueTriples (ensureSlots db).bookings = true)
    (hk : (filteredCourts (ensureSlots db) sid).get? k = some c)
    (hi1 : 1 ≤ i)
    (hslot : (sortByHour (ensureSlots db).timeSlots).get? (i - 1)
      = some slot) :
    ∃ ci : CourtInfo,
      (court_status_core sid d db).1.courts.get? k = some ci ∧
      ci.id = Nat.repr c._id ∧ ci.name = c.name ∧
      List.lookup (Nat.repr i) ci.slots = some
        { id := Nat.repr i, time := slot.formatted_slot,
          status := match (ensureSlots db).bookings.find?
              (tripleMatch c._id slot._id d) with
            | some b => b.status
            | none => "available" } := by
  have hcourts : (court_status_core sid d db).1.courts
      = (filteredCourts (ensureSlots db) sid).map (fun court =>
          { id := Nat.repr court._id, name := court.name,
            slots := ((sportDateBookings (ensureSlots db) sid d).filter
                (fun b => b.court == court._id)).foldl
              (applyBooking (sortByHour (ensureSlots db).timeSlots))
              (defaultSlots (sortByHour (ensureSlots db).timeSlots))
            : CourtInfo }) := rfl
  have hcmem : c ∈ (ensureSlots db).courts ∧ (c.sport == sid) = true :=
    List.mem_filter.mp (List.get?_mem hk)
  have hcs : c.sport = sid := by simpa using hcmem.2
  refine ⟨_, by rw [hcourts, List.get?_map, hk]; rfl, rfl, rfl, ?_⟩
  dsimp only
  rw [courtBookings_eq (ensureSlots db) sid d c hndc hcmem.1 hcs]
  have hcount : ((( ensureSlots db).bookings.filter
      (fun b => b.court == c._id && b.date == d)).filter
      (fun b => b.time_slot == slot._id)).length ≤ 1 := by
    rw [List.filter_filter]
    have hcg : (ensureSlots db).bookings.filter
        (fun b => b.time_slot == slot._id
          && (b.court == c._id && b.date == d))
        = (ensureSlots db).bookings.filter
            (tripleMatch c._id slot._id d) := by
      apply List.filter_congr
      intro x hx
      simp only [tripleMatch]
      cases hxc : x.court == c._id <;>
        cases hxt : x.time_slot == slot._id <;>
        cases hxd : x.date == d <;> rfl
    rw [hcg]
    exact count_tripleMatch c._id slot._id d (ensureSlots db).bookings hu
  have hmain := lookup_fold_main (sortByHour (ensureSlots db).timeSlots) i
    slot hi1 hslot hnd
    ((ensureSlots db).bookings.filter
      (fun b => b.court == c._id && b.date == d))
    (defaultSlots (sortByHour (ensureSlots db).timeSlots))
    slot.formatted_slot "available" hcount
    (lookup_defaultSlots (sortByHour (ensureSlots db).timeSlots) i slot hi1
      hslot)
  rw [hmain]
  rw [find?_filter (fun b => b.court == c._id && b.date == d)
    (fun b => b.time_slot == slot._id) (ensureSlots db).bookings]
  have hpe : (fun b : Booking => (b.time_slot == slot._id)
      && (b.court == c._id && b.date == d))
      = tripleMatch c._id slot._id d := by
    funext x
    simp only [tripleMatch]
    cases hxc : x.court == c._id <;>
      cases hxt : x.time_slot == slot._id <;>
      cases hxd : x.date == d <;> rfl
  rw [hpe]

/-! ### Concrete fixtures used by witnesses and counterexamples -/

/-- A store with one sport and one court and no slots yet. -/
def dbBase : DB :=
  { sports := [{ id := "badminton", name := "Badminton" }],
    courts := [{ _id := 100, sport := "badminton", name := "Court 1" }],
    timeSlots := [], bookings := [], nextId := 0, now := 0 }

/-- `dbBase` after the default seeding: slots for hours 7..22. -/
def dbSeeded : DB := create_default_slots dbBase

/-- `dbSeeded` with one booking on the 7 AM slot of the court. -/
def dbBooked : DB :=
  (update_booking_api (some "100") (some "1") (some "booked") 1 "alice"
    dbSeeded).2

/-! ### Claim C6 -/

/-- C6: for every hour h in [0,23], `formatted_slot` renders h on a
12-hour clock (a k in 1..12 congruent to h mod 12, rendering "12" when
h mod 12 = 0, hence for hours 0 and 12) with a ":00" minute part and
suffix "AM" exactly when h < 12; in particular hour 7 renders "7:00 AM"
and hour 22 renders "10:00 PM". -/
theorem c6_formatted_slot_twelve_hour_clock :
    (∀ h : Nat, h < 24 → ∃ k : Nat, k < 13 ∧ 1 ≤ k ∧ k % 12 = h % 12 ∧
      (h % 12 = 0 → k = 12) ∧
      TimeSlot.formatted_slot { _id := 0, hour := (h : Int) }
        = Nat.repr k ++ ":00 " ++ (if h < 12 then "AM" else "PM")) ∧
    TimeSlot.formatted_slot { _id := 0, hour := 7 } = "7:00 AM" ∧
    TimeSlot.formatted_slot { _id := 0, hour := 22 } = "10:00 PM" ∧
    TimeSlot.formatted_slot { _id := 0, hour := 0 } = "12:00 AM" ∧
    TimeSlot.formatted_slot { _id := 0, hour := 12 } = "12:00 PM" := by
  decide

/-- Witness for C6 at hour 7. -/
theorem c6_formatted_slot_twelve_hour_clock_witness :
    ∃ k : Nat, k < 13 ∧ 1 ≤ k ∧ k % 12 = 7 % 12 ∧ (7 % 12 = 0 → k = 12) ∧
      TimeSlot.formatted_slot { _id := 0, hour := ((7 : Nat) : Int) }
        = Nat.repr k ++ ":00 " ++ (if (7 : Nat) < 12 then "AM" else "PM") :=
  c6_formatted_slot_twelve_hour_clock.1 7 (by decide)

/-! ### Claim C2

The claim asserts that `frontend_slot_index = 0` fails with
InvalidArgument and leaves the store unchanged.  On the code,
`list(time_slots)[int('0') - 1]` is `list[-1]`: Python's negative
indexing silently selects the LAST sorted slot (hour 22), so the call
succeeds and creates a booking.  The `> N` and non-integer cases do
fail as claimed. -/

/-- C2: evaluation at the failing input.  With 16 seeded slots, a valid
court and status, slot index "0" succeeds — resolving to the hour-22
slot ("10:00 PM") and creating a booking — instead of returning the
"Invalid court or time slot" error; indices "17" and "abc" do fail as
the claim states. -/
theorem c2_slot_index_zero_wraps_to_last_slot :
    (update_booking_api (some "100") (some "0") (some "booked") 1 "alice"
        dbSeeded).1
      = Except.ok
          { id := some 16
            court := "Court 1"
            time_slot := "10:00 PM"
            date := 1
            status := "booked"
            user := "alice"
            action := "created" }
    ∧ (update_booking_api (some "100") (some "0") (some "booked") 1 "alice"
        dbSeeded).2.bookings.length = 1
    ∧ (update_booking_api (some "100") (some "17") (some "booked") 1 "alice"
        dbSeeded).1 = Except.error "Invalid court or time slot"
    ∧ (update_booking_api (some "100") (some "abc") (some "booked") 1 "alice"
        dbSeeded).1 = Except.error "Invalid court or time slot" := by
  decide

/-! ### Seeding lemmas -/

theorem get_or_create_slot_fields (db : DB) (h : Int) :
    (get_or_create_slot db h).sports = db.sports ∧
    (get_or_create_slot db h).courts = db.courts ∧
    (get_or_create_slot db h).bookings = db.bookings ∧
    (get_or_create_slot db h).now = db.now := by
  unfold get_or_create_slot
  split <;> exact ⟨rfl, rfl, rfl, rfl⟩

theorem foldl_get_or_create_fields :
    ∀ (hs : List Int) (db : DB),
      (hs.foldl get_or_create_slot db).sports = db.sports ∧
      (hs.foldl get_or_create_slot db).courts = db.courts ∧
      (hs.foldl get_or_create_slot db).bookings = db.bookings ∧
      (hs.foldl get_or_create_slot db).now = db.now := by
  intro hs
  induction hs with
  | nil => intro db; exact ⟨rfl, rfl, rfl, rfl⟩
  | cons h hs ih =>
    intro db
    rw [List.foldl_cons]
    have h1 := get_or_create_slot_fields db h
    have h2 := ih (get_or_create_slot db h)
    exact ⟨h2.1.trans h1.1, h2.2.1.trans h1.2.1,
      h2.2.2.1.trans h1.2.2.1, h2.2.2.2.trans h1.2.2.2⟩

theorem ensureSlots_fields (db : DB) :
    (ensureSlots db).sports = db.sports ∧
    (ensureSlots db).courts = db.courts ∧
    (ensureSlots db).bookings = db.bookings ∧
    (ensureSlots db).now = db.now := by
  unfold ensureSlots
  split
  · exact foldl_get_or_create_fields _ db
  · exact ⟨rfl, rfl, rfl, rfl⟩

theorem ensureSlots_of_ne_nil (db : DB) (h : db.timeSlots ≠ []) :
    ensureSlots db = db := by
  unfold ensureSlots
  rw [if_neg]
  simpa using h

theorem mem_get_or_create_slot (db : DB) (h : Int) (t : TimeSlot)
    (ht : t ∈ db.timeSlots) : t ∈ (get_or_create_slot db h).timeSlots := by
  unfold get_or_create_slot
  split
  · exact ht
  · exact List.mem_append_left _ ht

theorem mem_foldl_get_or_create :
    ∀ (hs : List Int) (db : DB) (t : TimeSlot), t ∈ db.timeSlots →
      t ∈ (hs.foldl get_or_create_slot db).timeSlots := by
  intro hs
  induction hs with
  | nil => intro db t ht; exact ht
  | cons h hs ih =>
    intro db t ht
    rw [List.foldl_cons]
    exact ih _ t (mem_get_or_create_slot db h t ht)

theorem get_or_create_slot_present (db : DB) (h : Int) :
    ∃ t ∈ (get_or_create_slot db h).timeSlots, t.hour = h := by
  unfold get_or_create_slot
  by_cases hg : db.timeSlots.any (fun t => t.hour == h) = true
  · rw [if_pos hg]
    obtain ⟨t, ht, hth⟩ := List.any_eq_true.mp hg
    exact ⟨t, ht, by simpa using hth⟩
  · rw [if_neg hg]
    exact ⟨{ _id := db.nextId, hour := h },
      List.mem_append_right _ (List.mem_singleton.mpr rfl), rfl⟩

theorem foldl_get_or_create_present :
    ∀ (hs : List Int) (db : DB) (h : Int), h ∈ hs →
      ∃ t ∈ (hs.foldl get_or_create_slot db).timeSlots, t.hour = h := by
  intro hs
  induction hs with
  | nil => intro db h hh; cases hh
  | cons h0 hs ih =>
    intro db h hh
    rw [List.foldl_cons]
    rcases List.mem_cons.mp hh with he | he
    · subst he
      obtain ⟨t, ht, hth⟩ := get_or_create_slot_present db h
      exact ⟨t, mem_foldl_get_or_create hs _ t ht, hth⟩
    · exact ih _ h he

theorem foldl_get_or_create_noop :
    ∀ (hs : List Int) (db : DB),
      (∀ h ∈ hs, ∃ t ∈ db.timeSlots, t.hour = h) →
      hs.foldl get_or_create_slot db = db := by
  intro hs
  induction hs with
  | nil => intro db _; rfl
  | cons h0 hs ih =>
    intro db hall
    rw [List.foldl_cons]
    have hstep : get_or_create_slot db h0 = db := by
      unfold get_or_create_slot
      rw [if_pos]
      obtain ⟨t, ht, hth⟩ := hall h0 (List.mem_cons_self h0 hs)
      exact List.any_eq_true.mpr ⟨t, ht, by simpa using hth⟩
    rw [hstep]
    exact ih db (fun h hh => hall h (List.mem_cons_of_mem h0 hh))

theorem foldl_get_or_create_hours_new :
    ∀ (hs : List Int) (db : DB), hs.Nodup →
      (∀ h ∈ hs, ∀ t ∈ db.timeSlots, t.hour ≠ h) →
      (hs.foldl get_or_create_slot db).timeSlots.map (fun t => t.hour)
        = db.timeSlots.map (fun t => t.hour) ++ hs := by
  intro hs
  induction hs with
  | nil => intro db _ _; simp
  | cons h0 hs ih =>
    intro db hnd hnew
    rw [List.foldl_cons]
    have hg : db.timeSlots.any (fun t => t.hour == h0) = false := by
      rw [Bool.eq_false_iff]
      intro hc
      obtain ⟨t, ht, hth⟩ := List.any_eq_true.mp hc
      exact hnew h0 (List.mem_cons_self h0 hs) t ht (by simpa using hth)
    have hstep : get_or_create_slot db h0
        = { db with timeSlots := db.timeSlots ++ [⟨db.nextId, h0⟩],
                    nextId := db.nextId + 1 } := by
      unfold get_or_create_slot
      rw [if_neg (by simp [hg])]
    rw [hstep]
    rw [ih _ (List.nodup_cons.mp hnd).2]
    · simp
    · intro h hh t ht
      rcases List.mem_append.mp ht with hold | hnewm
      · exact hnew h (List.mem_cons_of_mem h0 hh) t hold
      · have : t = ⟨db.nextId, h0⟩ := by simpa using hnewm
        subst this
        show h0 ≠ h
        intro he
        exact (List.nodup_cons.mp hnd).1 (he ▸ hh)

theorem create_default_slots_idem (db : DB) :
    create_default_slots (create_default_slots db)
      = create_default_slots db := by
  show ((List.range' 7 16).map (fun h => (h : Int))).foldl get_or_create_slot
      (create_default_slots db) = create_default_slots db
  apply foldl_get_or_create_noop
  intro h hh
  exact foldl_get_or_create_present _ db h hh

/-! ### Claim C7 -/

/-- C7: if the TimeSlot collection is empty, seeding (run lazily by
GetStatusGrid and ListTimeSlots) creates exactly one slot per hour
7..22; when slots exist neither operation changes the store; and
seeding is get-or-create per hour, hence idempotent. -/
theorem c7_lazy_slot_seeding :
    (∀ db : DB, db.timeSlots = [] →
      (create_default_slots db).timeSlots.map (fun t => t.hour)
        = (List.range' 7 16).map (fun h => (h : Int))) ∧
    (∀ db : DB, db.timeSlots = [] →
      (time_slots_api db).2 = create_default_slots db) ∧
    (∀ (db : DB) (sid : String) (d : Nat), sid ≠ "" → db.timeSlots = [] →
      (court_status_api (some sid) d db).2 = create_default_slots db) ∧
    (∀ db : DB, db.timeSlots ≠ [] → (time_slots_api db).2 = db) ∧
    (∀ (db : DB) (sid? : Option String) (d : Nat), db.timeSlots ≠ [] →
      (court_status_api sid? d db).2 = db) ∧
    (∀ db : DB, create_default_slots (create_default_slots db)
      = create_default_slots db) := by
  have hseed : ∀ db : DB, db.timeSlots = [] →
      (create_default_slots db).timeSlots.map (fun t => t.hour)
        = (List.range' 7 16).map (fun h => (h : Int)) := by
    intro db he
    show (((List.range' 7 16).map (fun h => (h : Int))).foldl
      get_or_create_slot db).timeSlots.map (fun t => t.hour) = _
    rw [foldl_get_or_create_hours_new _ db (by decide)
      (by rw [he]; intro h _ t ht; cases ht)]
    rw [he]
    rfl
  have hens : ∀ db : DB, db.timeSlots = [] →
      ensureSlots db = create_default_slots db := by
    intro db he
    unfold ensureSlots
    rw [if_pos (by simp [he])]
  refine ⟨hseed, ?_, ?_, ?_, ?_, create_default_slots_idem⟩
  · intro db he
    show ensureSlots db = create_default_slots db
    exact hens db he
  · intro db sid d hs he
    show (court_status_api (some sid) d db).2 = _
    unfold court_status_api
    rw [if_neg (by simpa using hs)]
    exact hens db he
  · intro db hne
    show ensureSlots db = db
    exact ensureSlots_of_ne_nil db hne
  · intro db sid? d hne
    unfold court_status_api
    show (if (sid?.getD "" == "") = true then
        match db.sports.head? with
        | some first_sport =>
          ((Except.ok (court_status_core first_sport.id d db).1 :
            Except String Grid), (court_status_core first_sport.id d db).2)
        | none => ((Except.error "No sports available" :
            Except String Grid), db)
      else ((Except.ok (court_status_core (sid?.getD "") d db).1 :
        Except String Grid), (court_status_core (sid?.getD "") d db).2)).2
      = db
    by_cases hraw : (sid?.getD "" == "") = true
    · rw [if_pos hraw]
      cases hsp : db.sports with
      | nil => rfl
      | cons s ss =>
        show (court_status_core s.id d db).2 = db
        exact ensureSlots_of_ne_nil db hne
    · rw [if_neg hraw]
      exact ensureSlots_of_ne_nil db hne

/-- Witness for C7 on the concrete empty-slot store `dbBase`. -/
theorem c7_lazy_slot_seeding_witness :
    (create_default_slots dbBase).timeSlots.map (fun t => t.hour)
      = (List.range' 7 16).map (fun h => (h : Int)) :=
  c7_lazy_slot_seeding.1 dbBase (by decide)

/-! ### Claim C9 -/

/-- C9: a GetStatusGrid call with a provided (non-empty) sport id always
succeeds — even when no Sport matches, in which case the courts list is
empty (given referential integrity of courts) and selectedSport echoes
the id — and the "No sports available" NotFound arises exactly when the
sport parameter is absent and the Sport catalog is empty. -/
theorem c9_unknown_sport_succeeds (db : DB) (d : Nat) (sid : String)
    (hs : sid ≠ "")
    (hint : ∀ c ∈ db.courts, ∃ sp ∈ db.sports, c.sport = sp.id)
    (hnm : ∀ sp ∈ db.sports, sp.id ≠ sid) :
    (∃ g, court_status_api (some sid) d db
        = (Except.ok g, ensureSlots db)
      ∧ g.selectedSport = sid ∧ g.courts = []) ∧
    (∀ (db2 : DB) (d2 : Nat) (sid2 : String), sid2 ≠ "" →
      ∃ g2, (court_status_api (some sid2) d2 db2).1 = Except.ok g2) ∧
    ((court_status_api none d db).1 = Except.error "No sports available"
      ↔ db.sports = []) := by
  have hred : ∀ (db2 : DB) (d2 : Nat) (sid2 : String), sid2 ≠ "" →
      court_status_api (some sid2) d2 db2
        = (Except.ok (court_status_core sid2 d2 db2).1,
           (court_status_core sid2 d2 db2).2) := by
    intro db2 d2 sid2 hs2
    unfold court_status_api
    rw [if_neg (by simpa using hs2)]
    rfl
  refine ⟨?_, ?_, ?_⟩
  · refine ⟨(court_status_core sid d db).1, ?_, rfl, ?_⟩
    · rw [hred db d sid hs]
      rfl
    · show ((filteredCourts (ensureSlots db) sid).map _) = []
      have hfe : filteredCourts (ensureSlots db) sid = [] := by
        unfold filteredCourts
        rw [(ensureSlots_fields db).2.1]
        rw [List.filter_eq_nil]
        intro c hc
        obtain ⟨sp, hsp, hcs⟩ := hint c hc
        simp only [beq_eq_false_iff_ne, ne_eq, Bool.not_eq_true]
        rw [hcs]
        exact hnm sp hsp
      rw [hfe]
      rfl
  · intro db2 d2 sid2 hs2
    exact ⟨(court_status_core sid2 d2 db2).1, by rw [hred db2 d2 sid2 hs2]⟩
  · unfold court_status_api
    cases hsp : db.sports with
    | nil =>
      constructor
      · intro _; rfl
      · intro _
        show (match ([] : List Sport).head? with
          | some first_sport =>
            ((Except.ok (court_status_core first_sport.id d db).1 :
              Except String Grid), (court_status_core first_sport.id d db).2)
          | none => ((Except.error "No sports available" :
              Except String Grid), db)).1 = _
        rfl
    | cons s ss =>
      constructor
      · intro hcontra
        rw [show (s :: ss).head? = some s from rfl] at hcontra
        cases hcontra
      · intro hcontra
        cases hcontra

/-- Witness for C9: a sport id matching no Sport on the concrete store. -/
theorem c9_unknown_sport_succeeds_witness :
    (∃ g, court_status_api (some "tennis") 1 dbBase
        = (Except.ok g, ensureSlots dbBase)
      ∧ g.selectedSport = "tennis" ∧ g.courts = []) ∧
    (∀ (db2 : DB) (d2 : Nat) (sid2 : String), sid2 ≠ "" →
      ∃ g2, (court_status_api (some sid2) d2 db2).1 = Except.ok g2) ∧
    ((court_status_api none 1 dbBase).1
      = Except.error "No sports available" ↔ dbBase.sports = []) :=
  c9_unknown_sport_succeeds dbBase 1 "tennis" (by decide) (by decide)
    (by decide)

/-! ### Claim C3 -/

/-- C9 witness helper is above; here: C3.  Every write operation — the
reconciler's delete and upsert paths and `Booking.save` for a fresh
instance — preserves the at-most-one-booking-per-(court, time_slot,
date) invariant; an "available" slot is the absence of a row (the
delete path only removes the triple's rows). -/
theorem c3_write_ops_preserve_unique_triples (op : WriteOp) (db : DB)
    (hu : uniqueTriples db.bookings = true) :
    uniqueTriples (applyWrite op db).bookings = true := by
  cases op with
  | saveNew c t d u s =>
    show uniqueTriples (booking_save_new db c t d u s).bookings = true
    unfold booking_save_new
    cases hf : db.bookings.find? (tripleMatch c t d) with
    | some b0 =>
      apply uniqueTriples_updateFirst <;>
        first
          | exact fun b => ⟨rfl, rfl, rfl⟩
          | exact hu
    | none =>
      apply uniqueTriples_append_single db.bookings _ hu
      intro b hb
      have hnb := List.find?_eq_none.mp hf b hb
      simpa [sameTriple, tripleMatch] using hnb
  | setSlot cid tsid ns d u =>
    show uniqueTriples (update_booking_api cid tsid ns d u db).2.bookings
      = true
    unfold update_booking_api
    dsimp only
    repeat' split
    all_goals try exact hu
    all_goals try exact uniqueTriples_filter db.bookings _ hu
    all_goals try (apply uniqueTriples_updateFirst <;>
      first
        | exact fun b => ⟨rfl, rfl, rfl⟩
        | exact hu)
    rename_i hf
    apply uniqueTriples_append_single db.bookings _ hu
    intro b hb
    have hnb := List.find?_eq_none.mp hf b hb
    simpa [sameTriple, tripleMatch] using hnb

/-- Witness for C3: a reconciler call on a store holding one booking. -/
theorem c3_write_ops_preserve_unique_triples_witness :
    uniqueTriples dbBooked.bookings = true ∧
    uniqueTriples (applyWrite (WriteOp.setSlot (some "100") (some "2")
      (some "maintenance") 1 "bob") dbBooked).bookings = true :=
  ⟨by decide, c3_write_ops_preserve_unique_triples
    (WriteOp.setSlot (some "100") (some "2") (some "maintenance") 1 "bob")
    dbBooked (by decide)⟩

/-! ### Claim C4 -/

/-- The store after the in-place upsert of the update path. -/
def upsertStore (db : DB) (cid sid0 d : Nat) (ns u : String) : DB :=
  { db with
    bookings := updateFirst (tripleMatch cid sid0 d)
      (fun b => { b with status := ns, user := u, updated_at := db.now })
      db.bookings }

theorem updateFirst_char {α : Type} (p : α → Bool) (f : α → α) :
    ∀ {l : List α} {b0 : α}, l.find? p = some b0 →
      (updateFirst p f l).length = l.length ∧
      ∃ j, l.get? j = some b0 ∧ (updateFirst p f l).get? j = some (f b0) ∧
        ∀ j2, j2 ≠ j → (updateFirst p f l).get? j2 = l.get? j2 := by
  intro l
  induction l with
  | nil => intro b0 h; cases h
  | cons a as ih =>
    intro b0 h
    by_cases hp : p a = true
    · have hb0 : b0 = a := by
        have : (a :: as).find? p = some a := by simp [hp]
        rw [this] at h
        cases h
        rfl
      subst hb0
      rw [updateFirst, if_pos hp]
      refine ⟨by simp, 0, rfl, rfl, ?_⟩
      intro j2 hj2
      match j2, hj2 with
      | j2 + 1, _ => rfl
    · have htail : as.find? p = some b0 := by
        have : (a :: as).find? p = as.find? p := by simp [hp]
        rw [this] at h
        exact h
      obtain ⟨hlen, j, hj, hj', hother⟩ := ih htail
      rw [updateFirst, if_neg hp]
      refine ⟨by simpa using hlen, j + 1, hj, hj', ?_⟩
      intro j2 hj2
      match j2, hj2 with
      | 0, _ => rfl
      | j2 + 1, hj2 => exact hother j2 (by omega)

/-- C4: with valid inputs, a non-"available" status, and the store
satisfying its uniqueness invariant (without it `update_or_create`'s
`get()` raises MultipleObjectsReturned and the view answers 500 with
the store unchanged), SetSlotStatus upserts by the resolved
(court, time_slot, date) triple: when a booking for the triple exists,
that row alone is mutated in place (status and user reassigned,
updated_at refreshed, id preserved) and the action is "updated"; when
none exists a new booking carrying the given
status/user/date/court/time_slot is appended and the action is
"created". -/
theorem c4_upsert_by_triple (db : DB) (cs tss ns u : String) (d : Nat)
    (fsid : Int) (slot : TimeSlot) (court : Court)
    (hcs : cs ≠ "") (htss : tss ≠ "") (hns : ns ≠ "")
    (hvalid : ns ∈ valid_statuses) (hav : ns ≠ "available")
    (hpi : pyInt tss = some fsid)
    (hget : pyListGet (sortByHour db.timeSlots) (fsid - 1) = some slot)
    (hcourt : lookupCourt db cs = some court)
    (hu : uniqueTriples db.bookings = true) :
    (∀ b0, db.bookings.find? (tripleMatch court._id slot._id d) = some b0 →
      ∃ db', update_booking_api (some cs) (some tss) (some ns) d u db
          = (Except.ok
              { id := some b0._id
                court := court.name
                time_slot := slot.formatted_slot
                date := d
                status := ns
                user := u
                action := "updated" }, db') ∧
        db'.bookings.length = db.bookings.length ∧
        ∃ j, db.bookings.get? j = some b0 ∧
          db'.bookings.get? j = some
            { b0 with status := ns, user := u, updated_at := db.now } ∧
          ∀ j2, j2 ≠ j → db'.bookings.get? j2 = db.bookings.get? j2) ∧
    (db.bookings.find? (tripleMatch court._id slot._id d) = none →
      update_booking_api (some cs) (some tss) (some ns) d u db
        = (Except.ok
            { id := some db.nextId
              court := court.name
              time_slot := slot.formatted_slot
              date := d
              status := ns
              user := u
              action := "created" },
           { db with
              bookings := db.bookings ++
                [{ _id := db.nextId
                   court := court._id
                   time_slot := slot._id
                   date := d
                   user := u
                   status := ns
                   created_at := db.now
                   updated_at := db.now }]
              nextId := db.nextId + 1 })) := by
  have hc1 : (cs == "") = false := by simpa using hcs
  have hc2 : (tss == "") = false := by simpa using htss
  have hc3 : (ns == "") = false := by simpa using hns
  have hc4 : (valid_statuses.contains ns) = true :=
    List.elem_eq_true_of_mem hvalid
  have hc5 : (ns == "available") = false := by simpa using hav
  have hone : ¬(1 < (db.bookings.filter
      (tripleMatch court._id slot._id d)).length) := by
    have := count_tripleMatch court._id slot._id d db.bookings hu
    omega
  constructor
  · intro b0 hf
    refine ⟨upsertStore db court._id slot._id d ns u, ?_, ?_, ?_⟩
    · unfold update_booking_api upsertStore
      simp [hc1, hc2, hc3, hc4, hc5, hvalid, hpi, hget, hcourt, hone, hf]
    · exact (updateFirst_char (tripleMatch court._id slot._id d)
        (fun b => { b with
          status := ns
          user := u
          updated_at := db.now }) hf).1
    · exact (updateFirst_char (tripleMatch court._id slot._id d)
        (fun b => { b with
          status := ns
          user := u
          updated_at := db.now }) hf).2
  · intro hf
    unfold update_booking_api
    simp [hc1, hc2, hc3, hc4, hc5, hvalid, hpi, hget, hcourt, hone, hf]

/-- Witness for C4 on the concrete booked store: updating the booked 7 AM
slot of court 100 on date 1. -/
theorem c4_upsert_by_triple_witness :
    (∀ b0, dbBooked.bookings.find? (tripleMatch 100 0 1) = some b0 →
      ∃ db', update_booking_api (some "100") (some "1") (some "maintenance")
          1 "bob" dbBooked
          = (Except.ok
              { id := some b0._id
                court := "Court 1"
                time_slot := "7:00 AM"
                date := 1
                status := "maintenance"
                user := "bob"
                action := "updated" }, db') ∧
        db'.bookings.length = dbBooked.bookings.length ∧
        ∃ j, dbBooked.bookings.get? j = some b0 ∧
          db'.bookings.get? j = some
            { b0 with
              status := "maintenance"
              user := "bob"
              updated_at := dbBooked.now } ∧
          ∀ j2, j2 ≠ j → db'.bookings.get? j2 = dbBooked.bookings.get? j2) ∧
    (dbBooked.bookings.find? (tripleMatch 100 0 1) = none →
      update_booking_api (some "100") (some "1") (some "maintenance")
          1 "bob" dbBooked
        = (Except.ok
            { id := some dbBooked.nextId
              court := "Court 1"
              time_slot := "7:00 AM"
              date := 1
              status := "maintenance"
              user := "bob"
              action := "created" },
           { dbBooked with
              bookings := dbBooked.bookings ++
                [{ _id := dbBooked.nextId
                   court := 100
                   time_slot := 0
                   date := 1
                   user := "bob"
                   status := "maintenance"
                   created_at := dbBooked.now
                   updated_at := dbBooked.now }]
              nextId := dbBooked.nextId + 1 })) :=
  c4_upsert_by_triple dbBooked "100" "1" "maintenance" "bob" 1 1
    { _id := 0, hour := 7 }
    { _id := 100
      sport := "badminton"
      name := "Court 1" }
    (by decide) (by decide) (by decide) (by decide) (by decide) (by decide)
    (by decide) (by decide) (by decide)

/-! ### Claim C5 -/

/-- The store after the delete path removed the triple's rows. -/
def deleteStore (db : DB) (cid sid0 d : Nat) : DB :=
  { db with
    bookings := db.bookings.filter (fun b => !(tripleMatch cid sid0 d b)) }

theorem filter_idem {α : Type} (q : α → Bool) (l : List α) :
    (l.filter q).filter q = l.filter q := by
  rw [List.filter_filter]
  apply List.filter_congr
  intro x _
  cases hq : q x <;> rfl

/-- Characterization of the "available" (delete) path of
`update_booking_api` under valid inputs. -/
theorem delete_path_char (db0 : DB) (cs tss u : String) (d : Nat)
    (fsid : Int) (slot : TimeSlot) (court : Court)
    (hc1 : (cs == "") = false) (hc2 : (tss == "") = false)
    (hpi : pyInt tss = some fsid)
    (hget : pyListGet (sortByHour db0.timeSlots) (fsid - 1) = some slot)
    (hcourt : lookupCourt db0 cs = some court) :
    update_booking_api (some cs) (some tss) (some "available") d u db0
      = (Except.ok
          { id := none
            court := court.name
            time_slot := slot.formatted_slot
            date := d
            status := "available"
            user := u
            action := if 0 < (db0.bookings.filter
                (tripleMatch court._id slot._id d)).length
              then "deleted" else "no_change" },
         deleteStore db0 court._id slot._id d) := by
  unfold update_booking_api deleteStore
  simp [hc1, hc2, hpi, hget, hcourt]
  decide

theorem pyListGet_nil {α : Type} (i : Int) : pyListGet ([] : List α) i = none := by
  unfold pyListGet
  split
  · rfl
  · split <;> rfl

/-- C5: setting a slot to "available" deletes the triple's row
(action "deleted" when one existed), a second identical call changes
nothing (action "no_change", store unchanged), and after both calls no
row remains for the triple — so the status grid shows the slot as
"available". -/
theorem c5_available_deletes_and_is_idempotent (db : DB) (cs tss u : String)
    (d : Nat) (fsid : Int) (slot : TimeSlot) (court : Court) (i k : Nat)
    (hcs : cs ≠ "") (htss : tss ≠ "")
    (hpi : pyInt tss = some fsid)
    (hget : pyListGet (sortByHour db.timeSlots) (fsid - 1) = some slot)
    (hcourt : lookupCourt db cs = some court)
    (hex : db.bookings.any (tripleMatch court._id slot._id d) = true)
    (hs0 : court.sport ≠ "")
    (hi1 : 1 ≤ i)
    (hslot2 : (sortByHour db.timeSlots).get? (i - 1) = some slot)
    (hnd : ((sortByHour db.timeSlots).map (fun t => t._id)).Nodup)
    (hndc : (db.courts.map (fun c => c._id)).Nodup)
    (hu : uniqueTriples db.bookings = true)
    (hk : (filteredCourts db court.sport).get? k = some court) :
    update_booking_api (some cs) (some tss) (some "available") d u db
      = (Except.ok
          { id := none
            court := court.name
            time_slot := slot.formatted_slot
            date := d
            status := "available"
            user := u
            action := "deleted" },
         deleteStore db court._id slot._id d) ∧
    update_booking_api (some cs) (some tss) (some "available") d u
        (deleteStore db court._id slot._id d)
      = (Except.ok
          { id := none
            court := court.name
            time_slot := slot.formatted_slot
            date := d
            status := "available"
            user := u
            action := "no_change" },
         deleteStore db court._id slot._id d) ∧
    (deleteStore db court._id slot._id d).bookings.any
      (tripleMatch court._id slot._id d) = false ∧
    ∃ g ci, (court_status_api (some court.sport) d
        (deleteStore db court._id slot._id d)).1 = Except.ok g ∧
      g.courts.get? k = some ci ∧
      List.lookup (Nat.repr i) ci.slots = some
        { id := Nat.repr i, time := slot.formatted_slot,
          status := "available" } := by
  have hc1 : (cs == "") = false := by simpa using hcs
  have hc2 : (tss == "") = false := by simpa using htss
  have hlen : 0 < (db.bookings.filter
      (tripleMatch court._id slot._id d)).length := by
    obtain ⟨x, hx, hpx⟩ := List.any_eq_true.mp hex
    exact List.length_pos_of_mem (List.mem_filter.mpr ⟨hx, hpx⟩)
  have hnil : ((deleteStore db court._id slot._id d).bookings.filter
      (tripleMatch court._id slot._id d)) = [] := by
    rw [List.filter_eq_nil]
    intro x hx hpx
    have hm := (List.mem_filter.mp hx).2
    rw [hpx] at hm
    cases hm
  have hany2 : (deleteStore db court._id slot._id d).bookings.any
      (tripleMatch court._id slot._id d) = false := by
    rw [Bool.eq_false_iff]
    intro hc
    obtain ⟨x, hx, hpx⟩ := List.any_eq_true.mp hc
    have hm := (List.mem_filter.mp hx).2
    rw [hpx] at hm
    cases hm
  have htne : db.timeSlots ≠ [] := by
    intro he
    rw [he] at hget
    rw [show sortByHour [] = [] from rfl, pyListGet_nil] at hget
    cases hget
  have he1 : ensureSlots (deleteStore db court._id slot._id d)
      = deleteStore db court._id slot._id d :=
    ensureSlots_of_ne_nil _ htne
  refine ⟨?_, ?_, hany2, ?_⟩
  · rw [delete_path_char db cs tss u d fsid slot court hc1 hc2 hpi hget
      hcourt, if_pos hlen]
  · have hget2 : pyListGet (sortByHour
        (deleteStore db court._id slot._id d).timeSlots) (fsid - 1)
        = some slot := hget
    have hcourt2 : lookupCourt (deleteStore db court._id slot._id d) cs
        = some court := hcourt
    rw [delete_path_char (deleteStore db court._id slot._id d) cs tss u d
      fsid slot court hc1 hc2 hpi hget2 hcourt2, hnil,
      if_neg (by decide)]
    have hdd : deleteStore (deleteStore db court._id slot._id d)
        court._id slot._id d = deleteStore db court._id slot._id d := by
      unfold deleteStore
      rw [filter_idem]
    rw [hdd]
  · have hnd2 : ((sortByHour (ensureSlots
        (deleteStore db court._id slot._id d)).timeSlots).map
        (fun t => t._id)).Nodup := by
      rw [he1]
      exact hnd
    have hndc2 : ((ensureSlots
        (deleteStore db court._id slot._id d)).courts.map
        (fun c => c._id)).Nodup := by
      rw [he1]
      exact hndc
    have hu2 : uniqueTriples (ensureSlots
        (deleteStore db court._id slot._id d)).bookings = true := by
      rw [he1]
      exact uniqueTriples_filter db.bookings _ hu
    have hk2 : (filteredCourts (ensureSlots
        (deleteStore db court._id slot._id d)) court.sport).get? k
        = some court := by
      rw [he1]
      exact hk
    have hslot3 : (sortByHour (ensureSlots
        (deleteStore db court._id slot._id d)).timeSlots).get? (i - 1)
        = some slot := by
      rw [he1]
      exact hslot2
    obtain ⟨ci, hci, hciid, hciname, hlk⟩ := grid_entry
      (deleteStore db court._id slot._id d) court.sport d k i court slot
      hnd2 hndc2 hu2 hk2 hi1 hslot3
    have hfind : (ensureSlots
        (deleteStore db court._id slot._id d)).bookings.find?
        (tripleMatch court._id slot._id d) = none := by
      rw [he1]
      apply List.find?_eq_none.mpr
      intro x hx hpx
      have hm := (List.mem_filter.mp hx).2
      rw [hpx] at hm
      cases hm
    rw [hfind] at hlk
    refine ⟨(court_status_core court.sport d
      (deleteStore db court._id slot._id d)).1, ci, ?_, hci, hlk⟩
    unfold court_status_api
    rw [if_neg (by simpa using hs0)]
    rfl

/-- Witness for C5 on the concrete booked store. -/
theorem c5_available_deletes_and_is_idempotent_witness :
    update_booking_api (some "100") (some "1") (some "available") 1 "carol"
        dbBooked
      = (Except.ok
          { id := none
            court := "Court 1"
            time_slot := "7:00 AM"
            date := 1
            status := "available"
            user := "carol"
            action := "deleted" },
         deleteStore dbBooked 100 0 1) ∧
    update_booking_api (some "100") (some "1") (some "available") 1 "carol"
        (deleteStore dbBooked 100 0 1)
      = (Except.ok
          { id := none
            court := "Court 1"
            time_slot := "7:00 AM"
            date := 1
            status := "available"
            user := "carol"
            action := "no_change" },
         deleteStore dbBooked 100 0 1) ∧
    (deleteStore dbBooked 100 0 1).bookings.any (tripleMatch 100 0 1)
      = false ∧
    ∃ g ci, (court_status_api (some "badminton") 1
        (deleteStore dbBooked 100 0 1)).1 = Except.ok g ∧
      g.courts.get? 0 = some ci ∧
      List.lookup (Nat.repr 1) ci.slots = some
        { id := Nat.repr 1, time := "7:00 AM", status := "available" } :=
  c5_available_deletes_and_is_idempotent dbBooked "100" "1" "carol" 1 1
    { _id := 0, hour := 7 }
    { _id := 100
      sport := "badminton"
      name := "Court 1" }
    1 0
    (by decide) (by decide) (by decide) (by decide) (by decide) (by decide)
    (by decide) (by decide) (by decide) (by decide) (by decide) (by decide)
    (by decide)

/-! ### Claim C1 -/

/-- C1: in the status grid for a sport and date, the slot-map entry of
court C at key `str(i)` (i a valid frontend index) has status
"available" when no booking exists for (C, slot-at-index-i, date) and
otherwise carries exactly that booking's status. -/
theorem c1_grid_status_reflects_bookings (db : DB) (sid : String)
    (d k i : Nat) (c : Court) (slot : TimeSlot) (hs : sid ≠ "")
    (hnd : ((sortByHour (ensureSlots db).timeSlots).map
      (fun t => t._id)).Nodup)
    (hndc : ((ensureSlots db).courts.map (fun c => c._id)).Nodup)
    (hu : uniqueTriples (ensureSlots db).bookings = true)
    (hk : (filteredCourts (ensureSlots db) sid).get? k = some c)
    (hi1 : 1 ≤ i)
    (hslot : (sortByHour (ensureSlots db).timeSlots).get? (i - 1)
      = some slot) :
    ∃ g ci, (court_status_api (some sid) d db).1 = Except.ok g ∧
      g.courts.get? k = some ci ∧ ci.id = Nat.repr c._id ∧
      ci.name = c.name ∧
      List.lookup (Nat.repr i) ci.slots = some
        { id := Nat.repr i, time := slot.formatted_slot,
          status := match (ensureSlots db).bookings.find?
              (tripleMatch c._id slot._id d) with
            | some b => b.status
            | none => "available" } := by
  obtain ⟨ci, hci, h1, h2, h3⟩ := grid_entry db sid d k i c slot hnd hndc
    hu hk hi1 hslot
  refine ⟨(court_status_core sid d db).1, ci, ?_, hci, h1, h2, h3⟩
  unfold court_status_api
  rw [if_neg (by simpa using hs)]
  rfl

/-- Witness for C1 on the concrete booked store: index 1 carries the
booking's "booked" status. -/
theorem c1_grid_status_reflects_bookings_witness :
    ∃ g ci, (court_status_api (some "badminton") 1 dbBooked).1
        = Except.ok g ∧
      g.courts.get? 0 = some ci ∧ ci.id = Nat.repr 100 ∧
      ci.name = "Court 1" ∧
      List.lookup (Nat.repr 1) ci.slots = some
        { id := Nat.repr 1, time := TimeSlot.formatted_slot
            { _id := 0, hour := 7 },
          status := match (ensureSlots dbBooked).bookings.find?
              (tripleMatch 100 0 1) with
            | some b => b.status
            | none => "available" } :=
  c1_grid_status_reflects_bookings dbBooked "badminton" 1 0 1
    { _id := 100
      sport := "badminton"
      name := "Court 1" }
    { _id := 0, hour := 7 }
    (by decide) (by decide) (by decide) (by decide) (by decide) (by decide)
    (by decide)

/-! ### Claim C10 -/

theorem applyBooking_shape (ts : List TimeSlot)
    (m : List (String × SlotEntry)) (b : Booking)
    (hlen : m.length = ts.length)
    (hsh : ∀ j slot, ts.get? j = some slot →
      ∃ st, m.get? j = some (Nat.repr (j + 1),
        { id := Nat.repr (j + 1), time := slot.formatted_slot,
          status := st })) :
    (applyBooking ts m b).length = ts.length ∧
    ∀ j slot, ts.get? j = some slot →
      ∃ st, (applyBooking ts m b).get? j = some (Nat.repr (j + 1),
        { id := Nat.repr (j + 1), time := slot.formatted_slot,
          status := st }) := by
  cases hf : ts.findIdx? (fun s => s._id == b.time_slot) with
  | none =>
    have happ : applyBooking ts m b = m := by
      unfold applyBooking findSlotIndex
      rw [hf]
      rfl
    rw [happ]
    exact ⟨hlen, hsh⟩
  | some j0 =>
    have happ : applyBooking ts m b
        = if m.any (fun p => p.1 == Nat.repr (j0 + 1))
          then setStatusAt m (Nat.repr (j0 + 1)) b.status else m := by
      unfold applyBooking findSlotIndex
      rw [hf]
      rfl
    rw [happ]
    by_cases hg : m.any (fun p => p.1 == Nat.repr (j0 + 1)) = true
    · rw [if_pos hg]
      constructor
      · rw [length_setStatusAt]
        exact hlen
      · intro j slot hj
        obtain ⟨st, hst⟩ := hsh j slot hj
        rw [get?_setStatusAt, hst]
        by_cases hc : (Nat.repr (j + 1) == Nat.repr (j0 + 1)) = true
        · refine ⟨b.status, ?_⟩
          simp only [Option.map_some']
          rw [if_pos hc]
        · refine ⟨st, ?_⟩
          simp only [Option.map_some']
          rw [if_neg hc]
    · rw [if_neg hg]
      exact ⟨hlen, hsh⟩

theorem fold_shape (ts : List TimeSlot) :
    ∀ (bs : List Booking) (m : List (String × SlotEntry)),
      m.length = ts.length →
      (∀ j slot, ts.get? j = some slot →
        ∃ st, m.get? j = some (Nat.repr (j + 1),
          { id := Nat.repr (j + 1), time := slot.formatted_slot,
            status := st })) →
      (bs.foldl (applyBooking ts) m).length = ts.length ∧
      ∀ j slot, ts.get? j = some slot →
        ∃ st, (bs.foldl (applyBooking ts) m).get? j
          = some (Nat.repr (j + 1),
            { id := Nat.repr (j + 1), time := slot.formatted_slot,
              status := st }) := by
  intro bs
  induction bs with
  | nil => intro m hlen hsh; exact ⟨hlen, hsh⟩
  | cons b bs ih =>
    intro m hlen hsh
    rw [List.foldl_cons]
    obtain ⟨hlen2, hsh2⟩ := applyBooking_shape ts m b hlen hsh
    exact ih (applyBooking ts m b) hlen2 hsh2

/-- C10: every court in the status grid has a slot map with exactly one
entry per frontend index 1..N (N the number of time slots), keyed by
the decimal string of the index, whose id equals the key and whose time
is the formatted_slot of the hour-sorted slot at that position —
whatever the bookings are; bookings only affect the status field. -/
theorem c10_slot_map_structure (db : DB) (sid : String) (d : Nat)
    (hs : sid ≠ "") (g : Grid)
    (hg : (court_status_api (some sid) d db).1 = Except.ok g) :
    ∀ ci ∈ g.courts,
      ci.slots.length = (sortByHour (ensureSlots db).timeSlots).length ∧
      ∀ j slot, (sortByHour (ensureSlots db).timeSlots).get? j = some slot →
        ∃ st, ci.slots.get? j = some (Nat.repr (j + 1),
          { id := Nat.repr (j + 1), time := slot.formatted_slot,
            status := st }) := by
  have hge : g = (court_status_core sid d db).1 := by
    have hred : (court_status_api (some sid) d db).1
        = Except.ok (court_status_core sid d db).1 := by
      unfold court_status_api
      rw [if_neg (by simpa using hs)]
      rfl
    rw [hred] at hg
    cases hg
    rfl
  subst hge
  intro ci hci
  have hci2 : ci ∈ (filteredCourts (ensureSlots db) sid).map (fun court =>
      ({ id := Nat.repr court._id, name := court.name,
         slots := ((sportDateBookings (ensureSlots db) sid d).filter
             (fun b => b.court == court._id)).foldl
           (applyBooking (sortByHour (ensureSlots db).timeSlots))
           (defaultSlots (sortByHour (ensureSlots db).timeSlots))
         : CourtInfo })) := hci
  obtain ⟨c, hc, hce⟩ := List.mem_map.mp hci2
  subst hce
  apply fold_shape
  · exact length_defaultSlots _
  · intro j slot hj
    exact ⟨"available", get?_defaultSlots _ j slot hj⟩

/-- Witness for C10 on the concrete booked store: its one court. -/
theorem c10_slot_map_structure_witness :
    ∃ ci, (court_status_core "badminton" 1 dbBooked).1.courts.get? 0
        = some ci ∧
      (ci.slots.length
        = (sortByHour (ensureSlots dbBooked).timeSlots).length ∧
      ∀ j slot,
        (sortByHour (ensureSlots dbBooked).timeSlots).get? j = some slot →
        ∃ st, ci.slots.get? j = some (Nat.repr (j + 1),
          { id := Nat.repr (j + 1), time := slot.formatted_slot,
            status := st })) := by
  have hs9 : ((court_status_core "badminton" 1 dbBooked).1.courts.get?
      0).isSome = true := by decide
  refine ⟨_, (Option.some_get hs9).symm, ?_⟩
  exact c10_slot_map_structure dbBooked "badminton" 1 (by decide)
    (court_status_core "badminton" 1 dbBooked).1 (by decide) _
    (List.get?_mem (Option.some_get hs9).symm)

end CourtStatus
